import Mathlib

/-!
Shallow embedding of the GPIO web controller (`AppData/app.py`).

The embedding models the core state of the service: the global registries
`pin_states`, `pwm_devices`, `input_monitors`, the SSE event queue, the
command handlers `set_pin_mode`, `write_pin`, `control_pwm`,
`toggle_monitor`, `reset_all_pins`, the cleanup helpers `cleanup_pin` and
`cleanup_all`, and the per-pin body of `input_monitor_worker`.

Modelling choices, all taken from the source:
* The gpiozero backend is embedded (the preferred backend, tried first):
  every configured pin and every PWM channel holds a device object that
  supports `close`.  Device objects are represented by numeric handles
  (`nextId` of the state is the allocation counter); the environment field
  `failing` lists the handles whose `close()` raises, which models driver
  release failures.  Operations that may close devices also return the
  list of handles on which `close()` was invoked, so release behaviour is
  observable.
* Python dicts are association lists, Python sets are duplicate-free
  lists, floats are rationals (exact for every value the claims use).
* `queue.Queue()` is modelled with its `maxsize` semantics: `maxsize = 0`
  means unbounded, and `put_nowait` raises `Full` (the record is then
  dropped by `log_event`) exactly when `0 < maxsize ≤ length`.
* `time.sleep` is modelled by accumulating the slept duration, and the
  physical level writes of a pulse are collected in order, so the blocking
  time and the waveform of `write_pin` are observable.
* Timestamps of event records are omitted: they come from the wall clock,
  which is external to the model.
-/

namespace App

/-- Association-list lookup, modelling Python `d[k]` and `k in d`. -/
def mapLookup {α : Type} : List (Nat × α) → Nat → Option α
  | [], _ => none
  | (k, v) :: rest, q => if k = q then some v else mapLookup rest q

/-- Association-list deletion, modelling Python `del d[k]`. -/
def mapErase {α : Type} : List (Nat × α) → Nat → List (Nat × α)
  | [], _ => []
  | (k, v) :: rest, q => if k = q then mapErase rest q else (k, v) :: mapErase rest q

/-- Association-list update, modelling Python `d[k] = v`. -/
def mapInsert {α : Type} (m : List (Nat × α)) (k : Nat) (v : α) : List (Nat × α) :=
  (k, v) :: mapErase m k

/-- Event severity levels used by `log_event`. -/
inductive Level where
  | info : Level
  | input : Level
  | error : Level
  deriving DecidableEq

/-- An entry of the SSE event queue. -/
structure EventRecord where
  message : String
  level : Level
  deriving DecidableEq

/-- The SSE queue.  `queue.Queue()` is constructed with `maxsize = 0`,
which in Python means unbounded. -/
structure EventQueue where
  maxsize : Nat
  items : List EventRecord
  deriving DecidableEq

/-- Python `Queue.put_nowait`: raises `Full` exactly when the queue is
bounded and at capacity; otherwise appends. -/
def EventQueue.put_nowait (q : EventQueue) (e : EventRecord) : EventQueue :=
  if 0 < q.maxsize ∧ q.maxsize ≤ q.items.length then q
  else { q with items := q.items ++ [e] }

/-- The global `event_queue` at startup: `queue.Queue()` (app.py line 69). -/
def event_queue : EventQueue := { maxsize := 0, items := [] }

/-- app.py `log_event` (lines 78-89): enqueue a record, dropping it when
`put_nowait` raises `Full`. -/
def log_event (q : EventQueue) (message : String) (level : Level) : EventQueue :=
  q.put_nowait { message := message, level := level }

/-- Entry of `pin_states`: mode, last logical value, pull, device handle. -/
structure PinState where
  mode : String
  value : Nat
  pull : String
  device : Option Nat
  deriving DecidableEq

/-- Entry of `pwm_devices`: device handle, frequency in Hz, duty cycle %. -/
structure PwmState where
  device : Nat
  frequency : ℚ
  duty_cycle : ℚ
  deriving DecidableEq

/-- The global mutable state of app.py, plus the device-handle
environment: `nextId` is the next fresh handle and `failing` lists the
handles whose `close()` raises. -/
structure St where
  pin_states : List (Nat × PinState)
  pwm_devices : List (Nat × PwmState)
  input_monitors : List Nat
  event_queue : EventQueue
  monitor_running : Bool
  nextId : Nat
  failing : List Nat
  deriving DecidableEq

/-- The state right after module load and `init_app`. -/
def init_state : St :=
  { pin_states := [], pwm_devices := [], input_monitors := [],
    event_queue := event_queue, monitor_running := true, nextId := 0, failing := [] }

/-- Valid BCM pins (app.py line 74). -/
def VALID_PINS : List Nat :=
  [2, 3, 4, 5, 6, 7, 8, 9, 10, 11, 12, 13, 14, 15, 16, 17, 18, 19, 20,
   21, 22, 23, 24, 25, 26, 27]

/-- Hardware-PWM-capable pins (app.py line 76). -/
def PWM_PINS : List Nat := [12, 13, 18, 19]

/-- Command outcome: `jsonify success` or an error payload. -/
inductive Result where
  | success : Result
  | error : String → Result
  deriving DecidableEq

/-- Second half of `cleanup_pin` (app.py lines 100-104): close and delete
the `pwm_devices` entry.  A raising `close()` jumps to the handler of
`cleanup_pin`, which logs and leaves the entry in place.  `tr` is the
trace of handles closed so far. -/
def cleanup_pin_pwm (s : St) (pin : Nat) (tr : List Nat) : St × List Nat :=
  match mapLookup s.pwm_devices pin with
  | some pw =>
      if s.failing.contains pw.device then
        ({ s with event_queue :=
             log_event s.event_queue ("Error cleaning up pin " ++ toString pin) Level.error },
         tr ++ [pw.device])
      else
        ({ s with pwm_devices := mapErase s.pwm_devices pin }, tr ++ [pw.device])
  | none => (s, tr)

/-- app.py `cleanup_pin` (lines 91-107), gpiozero backend (every device
object supports `close`).  Close and delete the `pin_states` entry, then
the `pwm_devices` entry; an exception from `close()` is caught, logged at
level error, and skips the rest of the cleanup (in particular the pending
`del`). -/
def cleanup_pin (s : St) (pin : Nat) : St × List Nat :=
  match mapLookup s.pin_states pin with
  | some ps =>
      match ps.device with
      | some h =>
          if s.failing.contains h then
            ({ s with event_queue :=
                 log_event s.event_queue ("Error cleaning up pin " ++ toString pin) Level.error },
             [h])
          else
            cleanup_pin_pwm { s with pin_states := mapErase s.pin_states pin } pin [h]
      | none => cleanup_pin_pwm { s with pin_states := mapErase s.pin_states pin } pin []
  | none => cleanup_pin_pwm s pin []

/-- Iterated `cleanup_pin` over a list of pins: the loops of
`cleanup_all`. -/
def cleanup_fold : St → List Nat → St × List Nat
  | s, [] => (s, [])
  | s, p :: ps =>
      let r1 := cleanup_pin s p
      let r2 := cleanup_fold r1.1 ps
      (r2.1, r1.2 ++ r2.2)

/-- app.py `cleanup_all` (lines 109-126): stop the monitor loop, cleanup
every `pin_states` key, then every remaining `pwm_devices` key (the
`RPi.GPIO` branch is not taken under the gpiozero backend), and log
completion. -/
def cleanup_all (s : St) : St × List Nat :=
  let s0 : St := { s with monitor_running := false }
  let r1 := cleanup_fold s0 (s0.pin_states.map Prod.fst)
  let r2 := cleanup_fold r1.1 (r1.1.pwm_devices.map Prod.fst)
  ({ r2.1 with event_queue :=
       log_event r2.1.event_queue ("GPIO cleanup completed") Level.info },
   r1.2 ++ r2.2)

/-- Per-pin body of `input_monitor_worker` (app.py lines 137-146) for one
monitored input pin: `previous_states` is the worker-local cache and
`current_value` the value returned by `read_pin_value`.  Returns the
updated cache and queue. -/
def monitor_poll_pin (previous_states : List (Nat × Nat)) (q : EventQueue)
    (pin current_value : Nat) : List (Nat × Nat) × EventQueue :=
  let previous_value := (mapLookup previous_states pin).getD current_value
  if current_value ≠ previous_value then
    let edge_type := if previous_value < current_value then "rising" else "falling"
    (mapInsert previous_states pin current_value,
     log_event q ("Pin " ++ toString pin ++ " " ++ edge_type ++ " edge detected (value: "
       ++ toString current_value ++ ")") Level.input)
  else (previous_states, q)

/-- Successive polls of one monitored input pin: fold the worker body over
the driver-observed values, starting from the empty cache and the fresh
queue of a newly started worker. -/
def monitor_run_pin (pin : Nat) (observed : List Nat) : List (Nat × Nat) × EventQueue :=
  observed.foldl (fun acc v => monitor_poll_pin acc.1 acc.2 pin v) ([], event_queue)

/-- app.py `set_pin_mode` (lines 214-291), gpiozero branch: validate pin
and mode, cleanup any existing configuration, acquire a fresh device
(`OutputDevice` or `InputDevice`) and record the new PinState.  `mode` and
`pull` are the lower-cased request fields. -/
def set_pin_mode (s : St) (pin : Nat) (mode pull : String) : Result × St :=
  if pin ∉ VALID_PINS then
    (Result.error ("Invalid pin " ++ toString pin), s)
  else if ¬ (mode = "input" ∨ mode = "output") then
    (Result.error ("Invalid mode " ++ mode), s)
  else
    let s1 := (cleanup_pin s pin).1
    let ps : PinState :=
      if mode = "output" then
        { mode := "output", value := 0, pull := "off", device := some s1.nextId }
      else
        { mode := "input", value := 0, pull := pull, device := some s1.nextId }
    (Result.success,
     { s1 with
        nextId := s1.nextId + 1,
        pin_states := mapInsert s1.pin_states pin ps,
        event_queue :=
          log_event s1.event_queue ("Pin " ++ toString pin ++ " configured as " ++ mode)
            Level.info })

/-- Observable effects of `write_pin`: the physical level writes
(`device.on` / `device.off`) in order, and the total time slept in
seconds. -/
structure WriteTrace where
  writes : List Nat
  sleep : ℚ
  deriving DecidableEq

/-- Physical writes of the pulse loop: `loops` iterations of on, off
(app.py lines 327-331). -/
def pulse_writes : Nat → List Nat
  | 0 => []
  | n + 1 => 1 :: 0 :: pulse_writes n

/-- Total time slept by the pulse loop: each iteration sleeps the on
duration and then the equal off duration (seconds). -/
def pulse_sleep : Nat → ℚ → ℚ
  | 0, _ => 0
  | n + 1, d => (d + d) + pulse_sleep n d

/-- app.py `write_pin` (lines 293-356), gpiozero branch.  `duration_ms`
and `loops` are the request fields (their defaults 100 and 5 are supplied
by the caller); the duration is converted to seconds on line 322, and
`off_time = duration` on line 324. -/
def write_pin (s : St) (pin : Nat) (action : String) (duration_ms : ℚ) (loops : Nat) :
    Result × St × WriteTrace :=
  match mapLookup s.pin_states pin with
  | none =>
      (Result.error ("Pin " ++ toString pin ++ " is not configured as output"), s,
       { writes := [], sleep := 0 })
  | some ps =>
      if ps.mode ≠ "output" then
        (Result.error ("Pin " ++ toString pin ++ " is not configured as output"), s,
         { writes := [], sleep := 0 })
      else if action = "high" ∨ action = "low" then
        let v : Nat := if action = "high" then 1 else 0
        (Result.success,
         { s with
            pin_states := mapInsert s.pin_states pin { ps with value := v },
            event_queue :=
              log_event s.event_queue ("Pin " ++ toString pin ++ " set to " ++ action)
                Level.info },
         { writes := [v], sleep := 0 })
      else if action = "pulse" then
        let duration : ℚ := duration_ms / 1000
        (Result.success,
         { s with
            pin_states := mapInsert s.pin_states pin { ps with value := 0 },
            event_queue :=
              log_event s.event_queue ("Pin " ++ toString pin ++ " pulsed") Level.info },
         { writes := pulse_writes loops, sleep := pulse_sleep loops duration })
      else
        (Result.error ("Invalid action " ++ action), s, { writes := [], sleep := 0 })

/-- Tail of the start branch of `control_pwm` (app.py lines 382-404):
`cleanup_pin`, acquire a fresh `PWMOutputDevice`, record the PwmState and
log.  `tr` is the close trace accumulated by the stop-existing step. -/
def pwm_start_acquire (s : St) (pin : Nat) (freq duty : ℚ) (tr : List Nat) :
    Result × St × List Nat :=
  let r := cleanup_pin s pin
  (Result.success,
   { r.1 with
      nextId := r.1.nextId + 1,
      pwm_devices :=
        mapInsert r.1.pwm_devices pin
          { device := r.1.nextId, frequency := freq, duty_cycle := duty },
      event_queue :=
        log_event r.1.event_queue ("PWM started on pin " ++ toString pin) Level.info },
   tr ++ r.2)

/-- app.py `control_pwm` (lines 358-453), gpiozero branch.  `frequency`
and `duty_cycle` are the optional request fields (`none` = absent from the
JSON body); the start branch applies the defaults 1000 and 50 (lines
370-371).  A `close()` that raises propagates to the outer handler, which
logs the error and returns the error response, keeping the mutations made
so far.  An action matching no branch falls through to the final success
response (there is no else branch after `update`). -/
def control_pwm (s : St) (pin : Nat) (action : String)
    (frequency duty_cycle : Option ℚ) : Result × St × List Nat :=
  if pin ∉ VALID_PINS then
    (Result.error ("Invalid pin " ++ toString pin), s, [])
  else if action = "start" then
    let freq := frequency.getD 1000
    let duty := duty_cycle.getD 50
    if duty < 0 ∨ duty > 100 then
      (Result.error ("Duty cycle must be 0-100%"), s, [])
    else
      match mapLookup s.pwm_devices pin with
      | some old =>
          if s.failing.contains old.device then
            (Result.error ("Error controlling PWM"),
             { s with event_queue :=
                 log_event s.event_queue ("Error controlling PWM") Level.error },
             [old.device])
          else
            pwm_start_acquire s pin freq duty [old.device]
      | none => pwm_start_acquire s pin freq duty []
  else if action = "stop" then
    match mapLookup s.pwm_devices pin with
    | some pw =>
        if s.failing.contains pw.device then
          (Result.error ("Error controlling PWM"),
           { s with event_queue :=
               log_event s.event_queue ("Error controlling PWM") Level.error },
           [pw.device])
        else
          (Result.success,
           { s with
              pwm_devices := mapErase s.pwm_devices pin,
              event_queue :=
                log_event s.event_queue ("PWM stopped on pin " ++ toString pin) Level.info },
           [pw.device])
    | none => (Result.success, s, [])
  else if action = "update" then
    match mapLookup s.pwm_devices pin with
    | none => (Result.error ("PWM not active on pin " ++ toString pin), s, [])
    | some pw =>
        let pw1 : PwmState :=
          match frequency with
          | some f => { pw with frequency := f }
          | none => pw
        let s1 : St :=
          match frequency with
          | some _ => { s with pwm_devices := mapInsert s.pwm_devices pin pw1 }
          | none => s
        match duty_cycle with
        | some d =>
            if d < 0 ∨ d > 100 then
              (Result.error ("Duty cycle must be 0-100%"), s1, [])
            else
              (Result.success,
               { s1 with
                  pwm_devices := mapInsert s1.pwm_devices pin { pw1 with duty_cycle := d },
                  event_queue :=
                    log_event s1.event_queue ("PWM updated on pin " ++ toString pin)
                      Level.info },
               [])
        | none => (Result.success, s1, [])
  else
    (Result.success, s, [])

/-- Python `set.add` on the monitor set. -/
def setAdd (l : List Nat) (pin : Nat) : List Nat :=
  if pin ∈ l then l else l ++ [pin]

/-- app.py `toggle_monitor` (lines 455-478). -/
def toggle_monitor (s : St) (pin : Nat) (enable : Bool) : Result × St :=
  match mapLookup s.pin_states pin with
  | none => (Result.error ("Pin " ++ toString pin ++ " is not configured as input"), s)
  | some ps =>
      if ps.mode ≠ "input" then
        (Result.error ("Pin " ++ toString pin ++ " is not configured as input"), s)
      else if enable then
        (Result.success,
         { s with
            input_monitors := setAdd s.input_monitors pin,
            event_queue :=
              log_event s.event_queue ("Started monitoring pin " ++ toString pin)
                Level.info })
      else
        (Result.success,
         { s with
            input_monitors := s.input_monitors.filter (fun p => p ≠ pin),
            event_queue :=
              log_event s.event_queue ("Stopped monitoring pin " ++ toString pin)
                Level.info })

/-- app.py `reset_all_pins` (lines 480-496): clear `input_monitors`, run
`cleanup_all`, log.  `cleanup_pin` swallows per-pin close errors, so this
handler always returns success. -/
def reset_all_pins (s : St) : Result × St × List Nat :=
  let s1 : St := { s with input_monitors := [] }
  let r := cleanup_all s1
  (Result.success,
   { r.1 with event_queue :=
       log_event r.1.event_queue ("All pins reset to safe defaults") Level.info },
   r.2)

/-- A client command, one per POST endpoint. -/
inductive Op where
  | mode : Nat → String → String → Op
  | write : Nat → String → ℚ → Nat → Op
  | pwm : Nat → String → Option ℚ → Option ℚ → Op
  | monitor : Nat → Bool → Op
  | reset : Op

/-- State transition of one command. -/
def step (s : St) : Op → St
  | Op.mode pin m pl => (set_pin_mode s pin m pl).2
  | Op.write pin act d l => (write_pin s pin act d l).2.1
  | Op.pwm pin act f d => (control_pwm s pin act f d).2.1
  | Op.monitor pin en => (toggle_monitor s pin en).2
  | Op.reset => (reset_all_pins s).2.1

/-- Run a sequence of commands. -/
def run (s : St) (ops : List Op) : St := ops.foldl step s

/-- Fold of `log_event` over a list of messages, starting from the fresh
`event_queue`: the producer side of the EventBus. -/
def publish_all (msgs : List String) : EventQueue :=
  msgs.foldl (fun q m => log_event q m Level.info) event_queue

/-- Mutual exclusion of PinState and PwmState at pin `p`. -/
def mutexAt (s : St) (p : Nat) : Prop :=
  mapLookup s.pin_states p = none ∨ mapLookup s.pwm_devices p = none

/-- A state with an active PWM channel (handle 7) on pin 18. -/
def st_pwm18 : St :=
  { pin_states := [],
    pwm_devices := [(18, { device := 7, frequency := 1000, duty_cycle := 50 })],
    input_monitors := [], event_queue := event_queue, monitor_running := true,
    nextId := 8, failing := [] }

/-- A state with pin 5 configured as output (handle 2). -/
def st_out5 : St :=
  { pin_states := [(5, { mode := "output", value := 1, pull := "off", device := some 2 })],
    pwm_devices := [], input_monitors := [], event_queue := event_queue,
    monitor_running := true, nextId := 3, failing := [] }

/-- A state with outputs on pins 4 (handle 9) and 5 (handle 10), pin 4
monitored, where handle 9 raises on close. -/
def st_badclose : St :=
  { pin_states :=
      [(4, { mode := "output", value := 0, pull := "off", device := some 9 }),
       (5, { mode := "output", value := 0, pull := "off", device := some 10 })],
    pwm_devices := [], input_monitors := [4], event_queue := event_queue,
    monitor_running := true, nextId := 11, failing := [9] }

/-- The C3 scenario: configure pin 17 as input with pull-down, enable
monitoring, then reconfigure it as output. -/
def ops_c3 : List Op :=
  [Op.mode 17 ("input") ("down"), Op.monitor 17 true, Op.mode 17 ("output") ("off")]

end App

namespace App

theorem mapLookup_mapErase {α : Type} (m : List (Nat × α)) (k q : Nat) :
    mapLookup (mapErase m k) q = if q = k then none else mapLookup m q := by
  induction m with
  | nil => simp [mapErase, mapLookup]
  | cons hd tl ih =>
      obtain ⟨a, v⟩ := hd
      simp only [mapErase, mapLookup]
      by_cases hak : a = k <;> by_cases haq : a = q <;> by_cases hq : q = k <;>
        simp_all [mapLookup]

theorem mapLookup_mapInsert {α : Type} (m : List (Nat × α)) (k q : Nat) (v : α) :
    mapLookup (mapInsert m k v) q = if q = k then some v else mapLookup m q := by
  simp only [mapInsert, mapLookup, mapLookup_mapErase]
  by_cases hk : k = q <;> by_cases hq : q = k <;> simp_all

theorem mapErase_of_lookup_none {α : Type} (m : List (Nat × α)) (k : Nat)
    (h : mapLookup m k = none) : mapErase m k = m := by
  induction m with
  | nil => simp [mapErase]
  | cons hd tl ih =>
      obtain ⟨a, v⟩ := hd
      simp only [mapLookup] at h
      by_cases hak : a = k
      · simp [hak] at h
      · simp only [mapErase, if_neg hak]
        simp only [if_neg hak] at h
        rw [ih h]

theorem mapLookup_eq_none_of_not_mem {α : Type} (m : List (Nat × α)) (q : Nat)
    (h : q ∉ m.map Prod.fst) : mapLookup m q = none := by
  induction m with
  | nil => simp [mapLookup]
  | cons hd tl ih =>
      obtain ⟨a, v⟩ := hd
      simp only [List.map_cons, List.mem_cons, not_or] at h
      simp only [mapLookup]
      rw [if_neg (fun hx : a = q => h.1 hx.symm)]
      exact ih h.2

theorem mapLookup_foldl_mapErase {α : Type} (ks : List Nat) (m : List (Nat × α)) (q : Nat) :
    mapLookup (ks.foldl mapErase m) q = if q ∈ ks then none else mapLookup m q := by
  induction ks generalizing m with
  | nil => simp
  | cons k ks ih =>
      simp only [List.foldl_cons, ih, mapLookup_mapErase, List.mem_cons]
      by_cases h1 : q ∈ ks <;> by_cases h2 : q = k <;> simp_all

end App

namespace App

theorem put_nowait_zero (items : List EventRecord) (e : EventRecord) :
    EventQueue.put_nowait { maxsize := 0, items := items } e =
      { maxsize := 0, items := items ++ [e] } := by
  simp [EventQueue.put_nowait]

theorem foldl_log_event_info (msgs : List String) (items : List EventRecord) :
    msgs.foldl (fun q m => log_event q m Level.info) { maxsize := 0, items := items } =
      { maxsize := 0,
        items := items ++ msgs.map (fun m => { message := m, level := Level.info }) } := by
  induction msgs generalizing items with
  | nil => simp
  | cons m ms ih =>
      rw [List.foldl_cons,
        show log_event { maxsize := 0, items := items } m Level.info =
          { maxsize := 0, items := items ++ [{ message := m, level := Level.info }] } from rfl,
        ih]
      simp [List.append_assoc]

theorem cleanup_pin_pwm_fst (s : St) (pin : Nat) (tr : List Nat) (hf : s.failing = []) :
    (cleanup_pin_pwm s pin tr).1 = { s with pwm_devices := mapErase s.pwm_devices pin } := by
  cases hpw : mapLookup s.pwm_devices pin with
  | none =>
      simp only [cleanup_pin_pwm, hpw]
      rw [mapErase_of_lookup_none _ _ hpw]
  | some pw =>
      have hc : s.failing.contains pw.device = false := by rw [hf]; rfl
      simp only [cleanup_pin_pwm, hpw, hc, Bool.false_eq_true, if_false]

theorem cleanup_pin_fst (s : St) (pin : Nat) (hf : s.failing = []) :
    (cleanup_pin s pin).1 =
      { s with pin_states := mapErase s.pin_states pin,
               pwm_devices := mapErase s.pwm_devices pin } := by
  cases hps : mapLookup s.pin_states pin with
  | none =>
      simp only [cleanup_pin, hps]
      rw [cleanup_pin_pwm_fst s pin [] hf, mapErase_of_lookup_none _ _ hps]
  | some ps =>
      cases hd : ps.device with
      | none =>
          simp only [cleanup_pin, hps, hd]
          exact cleanup_pin_pwm_fst _ pin [] hf
      | some h =>
          have hc : s.failing.contains h = false := by rw [hf]; rfl
          simp only [cleanup_pin, hps, hd, hc, Bool.false_eq_true, if_false]
          exact cleanup_pin_pwm_fst _ pin [h] hf

theorem cleanup_pin_pwm_monitors (s : St) (pin : Nat) (tr : List Nat) :
    (cleanup_pin_pwm s pin tr).1.input_monitors = s.input_monitors := by
  cases hpw : mapLookup s.pwm_devices pin with
  | none => simp only [cleanup_pin_pwm, hpw]
  | some pw =>
      simp only [cleanup_pin_pwm, hpw]
      split <;> rfl

theorem cleanup_pin_monitors (s : St) (pin : Nat) :
    (cleanup_pin s pin).1.input_monitors = s.input_monitors := by
  cases hps : mapLookup s.pin_states pin with
  | none =>
      simp only [cleanup_pin, hps]
      exact cleanup_pin_pwm_monitors s pin []
  | some ps =>
      cases hd : ps.device with
      | none =>
          simp only [cleanup_pin, hps, hd]
          exact cleanup_pin_pwm_monitors _ pin []
      | some h =>
          simp only [cleanup_pin, hps, hd]
          split
          · rfl
          · exact cleanup_pin_pwm_monitors _ pin [h]

theorem cleanup_fold_monitors (ks : List Nat) :
    ∀ s : St, (cleanup_fold s ks).1.input_monitors = s.input_monitors := by
  induction ks with
  | nil => intro s; rfl
  | cons p ps ih =>
      intro s
      have e : (cleanup_fold s (p :: ps)).1 = (cleanup_fold (cleanup_pin s p).1 ps).1 := rfl
      rw [e, ih, cleanup_pin_monitors]

theorem cleanup_all_monitors (s : St) :
    (cleanup_all s).1.input_monitors = s.input_monitors := by
  unfold cleanup_all
  dsimp only
  rw [cleanup_fold_monitors, cleanup_fold_monitors]

theorem cleanup_fold_fst (ks : List Nat) :
    ∀ s : St, s.failing = [] →
      (cleanup_fold s ks).1 =
        { s with pin_states := ks.foldl mapErase s.pin_states,
                 pwm_devices := ks.foldl mapErase s.pwm_devices } := by
  induction ks with
  | nil => intro s hf; rfl
  | cons p ps ih =>
      intro s hf
      have e : (cleanup_fold s (p :: ps)).1 = (cleanup_fold (cleanup_pin s p).1 ps).1 := rfl
      rw [e, cleanup_pin_fst s p hf]
      exact ih { s with pin_states := mapErase s.pin_states p,
                        pwm_devices := mapErase s.pwm_devices p } hf

theorem cleanup_fold_lookup_pin (ks : List Nat) (s : St) (hf : s.failing = []) (q : Nat) :
    mapLookup (cleanup_fold s ks).1.pin_states q =
      if q ∈ ks then none else mapLookup s.pin_states q := by
  rw [cleanup_fold_fst ks s hf]
  exact mapLookup_foldl_mapErase ks s.pin_states q

theorem cleanup_fold_lookup_pwm (ks : List Nat) (s : St) (hf : s.failing = []) (q : Nat) :
    mapLookup (cleanup_fold s ks).1.pwm_devices q =
      if q ∈ ks then none else mapLookup s.pwm_devices q := by
  rw [cleanup_fold_fst ks s hf]
  exact mapLookup_foldl_mapErase ks s.pwm_devices q

theorem cleanup_fold_failing (ks : List Nat) (s : St) (hf : s.failing = []) :
    (cleanup_fold s ks).1.failing = [] := by
  rw [cleanup_fold_fst ks s hf]
  exact hf

theorem cleanup_all_lookup_aux (t : St) (hf : t.failing = []) (q : Nat) :
    mapLookup (cleanup_fold (cleanup_fold t (t.pin_states.map Prod.fst)).1
      ((cleanup_fold t (t.pin_states.map Prod.fst)).1.pwm_devices.map Prod.fst)).1.pin_states q
        = none ∧
    mapLookup (cleanup_fold (cleanup_fold t (t.pin_states.map Prod.fst)).1
      ((cleanup_fold t (t.pin_states.map Prod.fst)).1.pwm_devices.map Prod.fst)).1.pwm_devices q
        = none := by
  have hf1 : (cleanup_fold t (t.pin_states.map Prod.fst)).1.failing = [] :=
    cleanup_fold_failing (t.pin_states.map Prod.fst) t hf
  constructor
  · rw [cleanup_fold_lookup_pin _ (cleanup_fold t (t.pin_states.map Prod.fst)).1 hf1]
    split
    · rfl
    · rw [cleanup_fold_lookup_pin _ t hf]
      split
      · rfl
      · rename_i hk2 hk1
        exact mapLookup_eq_none_of_not_mem _ _ hk1
  · rw [cleanup_fold_lookup_pwm _ (cleanup_fold t (t.pin_states.map Prod.fst)).1 hf1]
    split
    · rfl
    · rename_i hk2
      exact mapLookup_eq_none_of_not_mem _ _ hk2

theorem cleanup_all_lookup (s : St) (hf : s.failing = []) (q : Nat) :
    mapLookup (cleanup_all s).1.pin_states q = none ∧
    mapLookup (cleanup_all s).1.pwm_devices q = none :=
  cleanup_all_lookup_aux { s with monitor_running := false } hf q

theorem cleanup_all_failing (s : St) (hf : s.failing = []) :
    (cleanup_all s).1.failing = [] :=
  cleanup_fold_failing _ _
    (cleanup_fold_failing (({ s with monitor_running := false } : St).pin_states.map Prod.fst)
      { s with monitor_running := false } hf)

end App

namespace App

theorem mutex_keep (s t : St) (hps : t.pin_states = s.pin_states)
    (hpw : t.pwm_devices = s.pwm_devices) (hm : ∀ p, mutexAt s p) :
    ∀ p, mutexAt t p := by
  intro p
  unfold mutexAt
  rw [hps, hpw]
  exact hm p

theorem mutex_update_pin_at (s t : St) (pin : Nat) (v w : PinState)
    (hps : t.pin_states = mapInsert s.pin_states pin v)
    (hpw : t.pwm_devices = s.pwm_devices)
    (hsome : mapLookup s.pin_states pin = some w)
    (hm : ∀ p, mutexAt s p) : ∀ p, mutexAt t p := by
  intro p
  unfold mutexAt
  rw [hps, hpw, mapLookup_mapInsert]
  by_cases hp : p = pin
  · subst hp
    rcases hm p with h | h
    · rw [hsome] at h; cases h
    · exact Or.inr h
  · rw [if_neg hp]
    exact hm p

theorem mutex_config (s t : St) (pin : Nat) (v : PinState)
    (hps : t.pin_states = mapInsert (mapErase s.pin_states pin) pin v)
    (hpw : t.pwm_devices = mapErase s.pwm_devices pin)
    (hm : ∀ p, mutexAt s p) : ∀ p, mutexAt t p := by
  intro p
  unfold mutexAt
  rw [hps, hpw, mapLookup_mapInsert]
  by_cases hp : p = pin
  · exact Or.inr (by rw [mapLookup_mapErase, if_pos hp])
  · rw [if_neg hp, mapLookup_mapErase, if_neg hp, mapLookup_mapErase, if_neg hp]
    exact hm p

theorem mutex_pwm_start (s t : St) (pin : Nat) (v : PwmState)
    (hps : t.pin_states = mapErase s.pin_states pin)
    (hpw : t.pwm_devices = mapInsert (mapErase s.pwm_devices pin) pin v)
    (hm : ∀ p, mutexAt s p) : ∀ p, mutexAt t p := by
  intro p
  unfold mutexAt
  rw [hps, hpw, mapLookup_mapInsert]
  by_cases hp : p = pin
  · exact Or.inl (by rw [mapLookup_mapErase, if_pos hp])
  · rw [mapLookup_mapErase, if_neg hp, if_neg hp, mapLookup_mapErase, if_neg hp]
    exact hm p

theorem mutex_pwm_stop (s t : St) (pin : Nat)
    (hps : t.pin_states = s.pin_states)
    (hpw : t.pwm_devices = mapErase s.pwm_devices pin)
    (hm : ∀ p, mutexAt s p) : ∀ p, mutexAt t p := by
  intro p
  unfold mutexAt
  rw [hps, hpw, mapLookup_mapErase]
  by_cases hp : p = pin
  · exact Or.inr (by rw [if_pos hp])
  · rw [if_neg hp]
    exact hm p

theorem mutex_pwm_update (s t : St) (pin : Nat) (v w : PwmState)
    (hps : t.pin_states = s.pin_states)
    (hpw : t.pwm_devices = mapInsert s.pwm_devices pin v)
    (hsome : mapLookup s.pwm_devices pin = some w)
    (hm : ∀ p, mutexAt s p) : ∀ p, mutexAt t p := by
  intro p
  unfold mutexAt
  rw [hps, hpw, mapLookup_mapInsert]
  by_cases hp : p = pin
  · subst hp
    rcases hm p with h | h
    · exact Or.inl h
    · rw [hsome] at h; cases h
  · rw [if_neg hp]
    exact hm p

end App

namespace App

theorem set_pin_mode_state (s : St) (pin : Nat) (m pl : String) (hf : s.failing = []) :
    (set_pin_mode s pin m pl).2 = s ∨
    ∃ v q, (set_pin_mode s pin m pl).2 =
      { s with pin_states := mapInsert (mapErase s.pin_states pin) pin v,
               pwm_devices := mapErase s.pwm_devices pin,
               nextId := s.nextId + 1, event_queue := q } := by
  unfold set_pin_mode
  split
  · exact Or.inl rfl
  · split
    · exact Or.inl rfl
    · right
      refine ⟨(if m = "output" then
            { mode := "output", value := 0, pull := "off", device := some s.nextId }
          else
            { mode := "input", value := 0, pull := pl, device := some s.nextId }),
        log_event s.event_queue ("Pin " ++ toString pin ++ " configured as " ++ m)
          Level.info, ?_⟩
      rw [cleanup_pin_fst s pin hf]

theorem set_pin_mode_inv (s : St) (pin : Nat) (m pl : String) (hf : s.failing = [])
    (hm : ∀ p, mutexAt s p) :
    (set_pin_mode s pin m pl).2.failing = [] ∧
    ∀ p, mutexAt (set_pin_mode s pin m pl).2 p := by
  rcases set_pin_mode_state s pin m pl hf with h | ⟨v, q, h⟩
  · rw [h]; exact ⟨hf, hm⟩
  · rw [h]
    exact ⟨hf, mutex_config s _ pin v rfl rfl hm⟩

theorem write_pin_state (s : St) (pin : Nat) (act : String) (d : ℚ) (l : Nat) :
    (write_pin s pin act d l).2.1 = s ∨
    ∃ w v q, mapLookup s.pin_states pin = some w ∧
      (write_pin s pin act d l).2.1 =
        { s with pin_states := mapInsert s.pin_states pin v, event_queue := q } := by
  cases hps : mapLookup s.pin_states pin with
  | none =>
      left
      show (write_pin s pin act d l).2.1 = s
      unfold write_pin
      rw [hps]
  | some ps =>
      by_cases h1 : ps.mode ≠ "output"
      · left
        show (write_pin s pin act d l).2.1 = s
        simp only [write_pin, hps, if_pos h1]
      · by_cases h2 : act = "high" ∨ act = "low"
        · refine Or.inr ⟨ps, { ps with value := if act = "high" then 1 else 0 },
            log_event s.event_queue ("Pin " ++ toString pin ++ " set to " ++ act) Level.info,
            rfl, ?_⟩
          simp only [write_pin, hps, if_neg h1, if_pos h2]
        · by_cases h3 : act = "pulse"
          · refine Or.inr ⟨ps, { ps with value := 0 },
              log_event s.event_queue ("Pin " ++ toString pin ++ " pulsed") Level.info,
              rfl, ?_⟩
            simp only [write_pin, hps, if_neg h1, if_neg h2, if_pos h3]
          · left
            show (write_pin s pin act d l).2.1 = s
            simp only [write_pin, hps, if_neg h1, if_neg h2, if_neg h3]

theorem write_pin_inv (s : St) (pin : Nat) (act : String) (d : ℚ) (l : Nat)
    (hf : s.failing = []) (hm : ∀ p, mutexAt s p) :
    (write_pin s pin act d l).2.1.failing = [] ∧
    ∀ p, mutexAt (write_pin s pin act d l).2.1 p := by
  rcases write_pin_state s pin act d l with h | ⟨w, v, q, hsome, h⟩
  · rw [h]; exact ⟨hf, hm⟩
  · rw [h]
    exact ⟨hf, mutex_update_pin_at s _ pin v w rfl rfl hsome hm⟩

theorem control_pwm_state (s : St) (pin : Nat) (act : String) (f d : Option ℚ)
    (hf : s.failing = []) :
    (control_pwm s pin act f d).2.1 = s ∨
    (∃ v q, (control_pwm s pin act f d).2.1 =
        { s with pin_states := mapErase s.pin_states pin,
                 pwm_devices := mapInsert (mapErase s.pwm_devices pin) pin v,
                 nextId := s.nextId + 1, event_queue := q }) ∨
    (∃ q, (control_pwm s pin act f d).2.1 =
        { s with pwm_devices := mapErase s.pwm_devices pin, event_queue := q }) ∨
    (∃ w v q, mapLookup s.pwm_devices pin = some w ∧
        (control_pwm s pin act f d).2.1 =
          { s with pwm_devices := mapInsert s.pwm_devices pin v, event_queue := q }) ∨
    (∃ w v v2 q, mapLookup s.pwm_devices pin = some w ∧
        (control_pwm s pin act f d).2.1 =
          { s with pwm_devices := mapInsert (mapInsert s.pwm_devices pin v) pin v2,
                   event_queue := q }) := by
  by_cases hv : pin ∉ VALID_PINS
  · left
    show (control_pwm s pin act f d).2.1 = s
    simp only [control_pwm, if_pos hv]
  · by_cases ha1 : act = "start"
    · by_cases hdb : d.getD 50 < 0 ∨ d.getD 50 > 100
      · left
        show (control_pwm s pin act f d).2.1 = s
        simp only [control_pwm, if_neg hv, if_pos ha1, if_pos hdb]
      · cases hpw : mapLookup s.pwm_devices pin with
        | some old =>
            have hc : s.failing.contains old.device = false := by rw [hf]; rfl
            refine Or.inr (Or.inl
              ⟨{ device := s.nextId, frequency := f.getD 1000, duty_cycle := d.getD 50 },
                log_event s.event_queue ("PWM started on pin " ++ toString pin) Level.info,
                ?_⟩)
            simp only [control_pwm, pwm_start_acquire, if_neg hv, if_pos ha1, if_neg hdb,
              hpw, hc, Bool.false_eq_true, if_false]
            rw [cleanup_pin_fst s pin hf]
        | none =>
            refine Or.inr (Or.inl
              ⟨{ device := s.nextId, frequency := f.getD 1000, duty_cycle := d.getD 50 },
                log_event s.event_queue ("PWM started on pin " ++ toString pin) Level.info,
                ?_⟩)
            simp only [control_pwm, pwm_start_acquire, if_neg hv, if_pos ha1, if_neg hdb, hpw]
            rw [cleanup_pin_fst s pin hf]
    · by_cases ha2 : act = "stop"
      · cases hpw : mapLookup s.pwm_devices pin with
        | some pw =>
            have hc : s.failing.contains pw.device = false := by rw [hf]; rfl
            refine Or.inr (Or.inr (Or.inl
              ⟨log_event s.event_queue ("PWM stopped on pin " ++ toString pin) Level.info, ?_⟩))
            simp only [control_pwm, if_neg hv, if_neg ha1, if_pos ha2, hpw, hc,
              Bool.false_eq_true, if_false]
        | none =>
            left
            show (control_pwm s pin act f d).2.1 = s
            simp only [control_pwm, if_neg hv, if_neg ha1, if_pos ha2, hpw]
      · by_cases ha3 : act = "update"
        · cases hpw : mapLookup s.pwm_devices pin with
          | none =>
              left
              show (control_pwm s pin act f d).2.1 = s
              simp only [control_pwm, if_neg hv, if_neg ha1, if_neg ha2, if_pos ha3, hpw]
          | some pw =>
              cases hfq : f with
              | some fv =>
                  cases hdc : d with
                  | some dc =>
                      by_cases hdb2 : dc < 0 ∨ dc > 100
                      · refine Or.inr (Or.inr (Or.inr (Or.inl
                          ⟨pw, { pw with frequency := fv }, s.event_queue, rfl, ?_⟩)))
                        simp only [control_pwm, if_neg hv, if_neg ha1, if_neg ha2,
                          if_pos ha3, hpw, if_pos hdb2]
                      · refine Or.inr (Or.inr (Or.inr (Or.inr
                          ⟨pw, { pw with frequency := fv },
                            { pw with frequency := fv, duty_cycle := dc },
                            log_event s.event_queue ("PWM updated on pin " ++ toString pin)
                              Level.info, rfl, ?_⟩)))
                        simp only [control_pwm, if_neg hv, if_neg ha1, if_neg ha2,
                          if_pos ha3, hpw, if_neg hdb2]
                  | none =>
                      refine Or.inr (Or.inr (Or.inr (Or.inl
                        ⟨pw, { pw with frequency := fv }, s.event_queue, rfl, ?_⟩)))
                      simp only [control_pwm, if_neg hv, if_neg ha1, if_neg ha2,
                        if_pos ha3, hpw]
              | none =>
                  cases hdc : d with
                  | some dc =>
                      by_cases hdb2 : dc < 0 ∨ dc > 100
                      · left
                        show (control_pwm s pin act none (some dc)).2.1 = s
                        simp only [control_pwm, if_neg hv, if_neg ha1, if_neg ha2,
                          if_pos ha3, hpw, if_pos hdb2]
                      · refine Or.inr (Or.inr (Or.inr (Or.inl
                          ⟨pw, { pw with duty_cycle := dc },
                            log_event s.event_queue ("PWM updated on pin " ++ toString pin)
                              Level.info, rfl, ?_⟩)))
                        simp only [control_pwm, if_neg hv, if_neg ha1, if_neg ha2,
                          if_pos ha3, hpw, if_neg hdb2]
                  | none =>
                      left
                      show (control_pwm s pin act none none).2.1 = s
                      simp only [control_pwm, if_neg hv, if_neg ha1, if_neg ha2,
                        if_pos ha3, hpw]
        · left
          show (control_pwm s pin act f d).2.1 = s
          simp only [control_pwm, if_neg hv, if_neg ha1, if_neg ha2, if_neg ha3]

theorem control_pwm_inv (s : St) (pin : Nat) (act : String) (f d : Option ℚ)
    (hf : s.failing = []) (hm : ∀ p, mutexAt s p) :
    (control_pwm s pin act f d).2.1.failing = [] ∧
    ∀ p, mutexAt (control_pwm s pin act f d).2.1 p := by
  rcases control_pwm_state s pin act f d hf with
    h | ⟨v, q, h⟩ | ⟨q, h⟩ | ⟨w, v, q, hsome, h⟩ | ⟨w, v, v2, q, hsome, h⟩
  · rw [h]; exact ⟨hf, hm⟩
  · rw [h]; exact ⟨hf, mutex_pwm_start s _ pin v rfl rfl hm⟩
  · rw [h]; exact ⟨hf, mutex_pwm_stop s _ pin rfl rfl hm⟩
  · rw [h]; exact ⟨hf, mutex_pwm_update s _ pin v w rfl rfl hsome hm⟩
  · rw [h]
    refine ⟨hf, ?_⟩
    have hm1 := mutex_pwm_update s { s with pwm_devices := mapInsert s.pwm_devices pin v }
      pin v w rfl rfl hsome hm
    refine mutex_pwm_update { s with pwm_devices := mapInsert s.pwm_devices pin v } _
      pin v2 v rfl rfl ?_ hm1
    rw [show ({ s with pwm_devices := mapInsert s.pwm_devices pin v } : St).pwm_devices =
          mapInsert s.pwm_devices pin v from rfl,
        mapLookup_mapInsert, if_pos rfl]

theorem toggle_monitor_state (s : St) (pin : Nat) (en : Bool) :
    ∃ l q, (toggle_monitor s pin en).2 = { s with input_monitors := l, event_queue := q } := by
  cases hps : mapLookup s.pin_states pin with
  | none =>
      exact ⟨s.input_monitors, s.event_queue, by simp only [toggle_monitor, hps]⟩
  | some ps =>
      by_cases h1 : ps.mode ≠ "input"
      · exact ⟨s.input_monitors, s.event_queue,
          by simp only [toggle_monitor, hps, if_pos h1]⟩
      · cases en with
        | true =>
            exact ⟨setAdd s.input_monitors pin,
              log_event s.event_queue ("Started monitoring pin " ++ toString pin) Level.info,
              by simp only [toggle_monitor, hps, if_neg h1]; rfl⟩
        | false =>
            exact ⟨s.input_monitors.filter (fun p => p ≠ pin),
              log_event s.event_queue ("Stopped monitoring pin " ++ toString pin) Level.info,
              by simp only [toggle_monitor, hps, if_neg h1]; rfl⟩

theorem reset_all_pins_inv (s : St) (hf : s.failing = []) :
    (reset_all_pins s).2.1.failing = [] ∧ ∀ p, mutexAt (reset_all_pins s).2.1 p := by
  constructor
  · exact cleanup_all_failing { s with input_monitors := [] } hf
  · intro p
    exact Or.inl (cleanup_all_lookup { s with input_monitors := [] } hf p).1

theorem step_inv (s : St) (op : Op) (hf : s.failing = []) (hm : ∀ p, mutexAt s p) :
    (step s op).failing = [] ∧ ∀ p, mutexAt (step s op) p := by
  cases op with
  | mode pin m pl => exact set_pin_mode_inv s pin m pl hf hm
  | write pin act d l => exact write_pin_inv s pin act d l hf hm
  | pwm pin act f d => exact control_pwm_inv s pin act f d hf hm
  | monitor pin en =>
      obtain ⟨l, q, h⟩ := toggle_monitor_state s pin en
      constructor
      · show (toggle_monitor s pin en).2.failing = []
        rw [h]
        exact hf
      · show ∀ p, mutexAt (toggle_monitor s pin en).2 p
        rw [h]
        exact mutex_keep s _ rfl rfl hm
  | reset => exact reset_all_pins_inv s hf

theorem run_inv (ops : List Op) :
    ∀ s : St, s.failing = [] → (∀ p, mutexAt s p) →
      (run s ops).failing = [] ∧ ∀ p, mutexAt (run s ops) p := by
  induction ops with
  | nil => intro s hf hm; exact ⟨hf, hm⟩
  | cons op ops ih =>
      intro s hf hm
      have h := step_inv s op hf hm
      exact ih (step s op) h.1 h.2

end App

namespace App

theorem pulse_writes_count_one (n : Nat) : (pulse_writes n).count 1 = n := by
  induction n with
  | zero => rfl
  | succ k ih => simp [pulse_writes, List.count_cons, ih]

theorem pulse_writes_count_zero (n : Nat) : (pulse_writes n).count 0 = n := by
  induction n with
  | zero => rfl
  | succ k ih => simp [pulse_writes, List.count_cons, ih]

theorem pulse_sleep_eq (n : Nat) (d : ℚ) : pulse_sleep n d = n * (2 * d) := by
  induction n with
  | zero => simp [pulse_sleep]
  | succ k ih =>
      rw [show pulse_sleep (k + 1) d = (d + d) + pulse_sleep k d from rfl, ih]
      push_cast
      ring

theorem set_pin_mode_monitors (s : St) (pin : Nat) (m pl : String) :
    (set_pin_mode s pin m pl).2.input_monitors = s.input_monitors := by
  unfold set_pin_mode
  split
  · rfl
  · split
    · rfl
    · exact cleanup_pin_monitors s pin

theorem pwm_start_acquire_monitors (s : St) (pin : Nat) (f d : ℚ) (tr : List Nat) :
    (pwm_start_acquire s pin f d tr).2.1.input_monitors = s.input_monitors :=
  cleanup_pin_monitors s pin

theorem control_pwm_monitors (s : St) (pin : Nat) (act : String) (f d : Option ℚ) :
    (control_pwm s pin act f d).2.1.input_monitors = s.input_monitors := by
  by_cases hv : pin ∉ VALID_PINS
  · simp only [control_pwm, if_pos hv]
  · by_cases ha1 : act = "start"
    · by_cases hdb : d.getD 50 < 0 ∨ d.getD 50 > 100
      · simp only [control_pwm, if_neg hv, if_pos ha1, if_pos hdb]
      · cases hpw : mapLookup s.pwm_devices pin with
        | some old =>
            simp only [control_pwm, if_neg hv, if_pos ha1, if_neg hdb, hpw]
            split
            · rfl
            · exact pwm_start_acquire_monitors s pin _ _ _
        | none =>
            simp only [control_pwm, if_neg hv, if_pos ha1, if_neg hdb, hpw]
            exact pwm_start_acquire_monitors s pin _ _ _
    · by_cases ha2 : act = "stop"
      · cases hpw : mapLookup s.pwm_devices pin with
        | some pw =>
            simp only [control_pwm, if_neg hv, if_neg ha1, if_pos ha2, hpw]
            split
            · rfl
            · rfl
        | none => simp only [control_pwm, if_neg hv, if_neg ha1, if_pos ha2, hpw]
      · by_cases ha3 : act = "update"
        · cases hpw : mapLookup s.pwm_devices pin with
          | none =>
              simp only [control_pwm, if_neg hv, if_neg ha1, if_neg ha2, if_pos ha3, hpw]
          | some pw =>
              cases hfq : f with
              | some fv =>
                  cases hdc : d with
                  | some dc =>
                      simp only [control_pwm, if_neg hv, if_neg ha1, if_neg ha2,
                        if_pos ha3, hpw]
                      split
                      · rfl
                      · rfl
                  | none =>
                      simp only [control_pwm, if_neg hv, if_neg ha1, if_neg ha2,
                        if_pos ha3, hpw]
              | none =>
                  cases hdc : d with
                  | some dc =>
                      simp only [control_pwm, if_neg hv, if_neg ha1, if_neg ha2,
                        if_pos ha3, hpw]
                      split
                      · rfl
                      · rfl
                  | none =>
                      simp only [control_pwm, if_neg hv, if_neg ha1, if_neg ha2,
                        if_pos ha3, hpw]
        · simp only [control_pwm, if_neg hv, if_neg ha1, if_neg ha2, if_neg ha3]

theorem reset_all_pins_monitors (s : St) :
    (reset_all_pins s).2.1.input_monitors = [] :=
  cleanup_all_monitors { s with input_monitors := [] }

end App

namespace App

/-- Claim C1 evaluation at the failing input: for observed poll values
0,0,1,1,0 on a monitored input pin, the worker body emits no event at all
and never writes the cache — the cache is only assigned inside the
inequality branch, and the lookup default makes the compared previous value
equal to the current one whenever the pin is absent from the cache, so the
0-to-1 and 1-to-0 transitions produce no rising or falling event. -/
theorem c1_monitor_never_fires :
    (monitor_run_pin 17 [0, 0, 1, 1, 0]).2.items = [] ∧
    (monitor_run_pin 17 [0, 0, 1, 1, 0]).1 = [] := by
  decide

/-- Claim C2 counterexample: on a state with PWM active on pin 18 at
frequency 1000, an update request carrying frequency 2000 and the
out-of-range duty cycle 150 is rejected, yet the stored frequency has
already been mutated to 2000 — the rejection does not leave the stored PWM
parameters unchanged. -/
theorem c2_counterexample :
    (control_pwm st_pwm18 18 "update" (some 2000) (some 150)).1 ≠ Result.success ∧
    mapLookup (control_pwm st_pwm18 18 "update" (some 2000) (some 150)).2.1.pwm_devices 18 =
      some { device := 7, frequency := 2000, duty_cycle := 50 } := by
  decide

/-- Claim C3 counterexample: configure pin 17 as input, enable monitoring,
then reconfigure it as output; pin 17 is still in the monitor set while its
PinState mode is output, so MonitorSet is not a subset of the
Input-configured pins. -/
theorem c3_counterexample :
    17 ∈ (run init_state ops_c3).input_monitors ∧
    (mapLookup (run init_state ops_c3).pin_states 17).map PinState.mode =
      some ("output") := by
  decide

/-- Claim C4 counterexample: starting PWM on pin 18, which already has an
active PWM handle 7, closes handle 7 twice — once in the start branch and
once more in cleanup_pin, which still finds the entry. -/
theorem c4_counterexample :
    (control_pwm st_pwm18 18 "start" (some 500) (some 25)).2.2 = [7, 7] := by
  decide

/-- Claim C8 counterexample: resetting a state where the handle of pin 4
raises on close keeps the PinState entry of pin 4 (the deletion after the
failing close is skipped), while pin 5 is cleaned up and the monitor set is
cleared — so a snapshot after reset does not report every pin as
unconfigured. -/
theorem c8_counterexample :
    mapLookup (reset_all_pins st_badclose).2.1.pin_states 4 =
      some { mode := "output", value := 0, pull := "off", device := some 9 } ∧
    mapLookup (reset_all_pins st_badclose).2.1.pin_states 5 = none ∧
    (reset_all_pins st_badclose).2.1.input_monitors = [] := by
  decide

/-- Claim C9 counterexample: a pwm request on a valid pin with the
unrecognized action "bogus" is reported as success, not rejected with an
InvalidAction error (it performs no mutation either). -/
theorem c9_counterexample :
    (control_pwm init_state 17 "bogus" none none).1 = Result.success ∧
    (control_pwm init_state 17 "bogus" none none).2.1 = init_state := by
  decide

end App

namespace App

/-- Claim C2 amended: startPwm validates the duty cycle before any
mutation — it rejects -1 and 101 with the state unchanged and accepts 0 and
100 — and updatePwm with an out-of-range duty cycle and no frequency field
leaves the state unchanged; only an update that also carries a frequency
mutates the stored frequency before the rejection. -/
theorem c2_amended (s : St) (pin : Nat) (f d : ℚ) (hf : s.failing = [])
    (hp : pin ∈ VALID_PINS) (hd : d < 0 ∨ d > 100) :
    ((control_pwm s pin "start" (some f) (some (-1))).1 ≠ Result.success ∧
      (control_pwm s pin "start" (some f) (some (-1))).2.1 = s) ∧
    ((control_pwm s pin "start" (some f) (some 101)).1 ≠ Result.success ∧
      (control_pwm s pin "start" (some f) (some 101)).2.1 = s) ∧
    (control_pwm s pin "start" (some f) (some 0)).1 = Result.success ∧
    (control_pwm s pin "start" (some f) (some 100)).1 = Result.success ∧
    ((control_pwm s pin "update" none (some d)).1 ≠ Result.success ∧
      (control_pwm s pin "update" none (some d)).2.1 = s) := by
  have hnv : ¬ pin ∉ VALID_PINS := not_not_intro hp
  have rej : ∀ D : ℚ,
      ((some D : Option ℚ).getD 50 < 0 ∨ (some D : Option ℚ).getD 50 > 100) →
      (control_pwm s pin "start" (some f) (some D)).1 ≠ Result.success ∧
      (control_pwm s pin "start" (some f) (some D)).2.1 = s := by
    intro D hD
    constructor
    · show (control_pwm s pin "start" (some f) (some D)).1 ≠ Result.success
      simp only [control_pwm, if_neg hnv, reduceIte, if_pos hD]
      exact fun hc => Result.noConfusion hc
    · show (control_pwm s pin "start" (some f) (some D)).2.1 = s
      simp only [control_pwm, if_neg hnv, reduceIte, if_pos hD]
  have acc : ∀ D : ℚ,
      ¬ ((some D : Option ℚ).getD 50 < 0 ∨ (some D : Option ℚ).getD 50 > 100) →
      (control_pwm s pin "start" (some f) (some D)).1 = Result.success := by
    intro D hD
    cases hpw : mapLookup s.pwm_devices pin with
    | some old =>
        have hc : s.failing.contains old.device = false := by rw [hf]; rfl
        simp only [control_pwm, if_neg hnv, reduceIte, if_neg hD, hpw, hc,
          Bool.false_eq_true, if_false, pwm_start_acquire]
    | none =>
        simp only [control_pwm, if_neg hnv, reduceIte, if_neg hD, hpw, pwm_start_acquire]
  refine ⟨rej (-1) (Or.inl (by norm_num [Option.getD_some])),
    rej 101 (Or.inr (by norm_num [Option.getD_some])),
    acc 0 (by norm_num [Option.getD_some]),
    acc 100 (by norm_num [Option.getD_some]), ?_⟩
  cases hpw : mapLookup s.pwm_devices pin with
  | none =>
      constructor
      · show (control_pwm s pin "update" none (some d)).1 ≠ Result.success
        simp only [control_pwm, if_neg hnv, String.reduceEq, if_false, reduceIte, hpw]
        exact fun hc => Result.noConfusion hc
      · show (control_pwm s pin "update" none (some d)).2.1 = s
        simp only [control_pwm, if_neg hnv, String.reduceEq, if_false, reduceIte, hpw]
  | some pw =>
      constructor
      · show (control_pwm s pin "update" none (some d)).1 ≠ Result.success
        simp only [control_pwm, if_neg hnv, String.reduceEq, if_false, reduceIte, hpw,
          if_pos hd]
        exact fun hc => Result.noConfusion hc
      · show (control_pwm s pin "update" none (some d)).2.1 = s
        simp only [control_pwm, if_neg hnv, String.reduceEq, if_false, reduceIte, hpw,
          if_pos hd]

/-- Claim C2 amended, witness at pin 17, frequency 1000, duty 150. -/
theorem c2_amended_witness :
    ((control_pwm init_state 17 "start" (some 1000) (some (-1))).1 ≠ Result.success ∧
      (control_pwm init_state 17 "start" (some 1000) (some (-1))).2.1 = init_state) ∧
    ((control_pwm init_state 17 "start" (some 1000) (some 101)).1 ≠ Result.success ∧
      (control_pwm init_state 17 "start" (some 1000) (some 101)).2.1 = init_state) ∧
    (control_pwm init_state 17 "start" (some 1000) (some 0)).1 = Result.success ∧
    (control_pwm init_state 17 "start" (some 1000) (some 100)).1 = Result.success ∧
    ((control_pwm init_state 17 "update" none (some 150)).1 ≠ Result.success ∧
      (control_pwm init_state 17 "update" none (some 150)).2.1 = init_state) :=
  c2_amended init_state 17 1000 150 rfl (by decide) (Or.inr (by norm_num))

end App

namespace App

/-- Claim C3 amended: enabling monitoring on a pin not configured as Input
is rejected with the state unchanged, and reset clears the monitor set;
but reconfiguring a pin and PWM commands leave the monitor set unchanged,
so a pin can stay monitored after losing its Input configuration (the
monitor loop skips such pins at poll time). -/
theorem c3_amended (s : St) (pin : Nat)
    (h : ∀ ps, mapLookup s.pin_states pin = some ps → ps.mode ≠ "input") :
    ((toggle_monitor s pin true).1 ≠ Result.success ∧
      (toggle_monitor s pin true).2 = s) ∧
    (reset_all_pins s).2.1.input_monitors = [] ∧
    (∀ m pl, (set_pin_mode s pin m pl).2.input_monitors = s.input_monitors) ∧
    (∀ act f d, (control_pwm s pin act f d).2.1.input_monitors = s.input_monitors) := by
  refine ⟨?_, reset_all_pins_monitors s, fun m pl => set_pin_mode_monitors s pin m pl,
    fun act f d => control_pwm_monitors s pin act f d⟩
  cases hps : mapLookup s.pin_states pin with
  | none =>
      constructor
      · show (toggle_monitor s pin true).1 ≠ Result.success
        simp only [toggle_monitor, hps]
        exact fun hc => Result.noConfusion hc
      · show (toggle_monitor s pin true).2 = s
        simp only [toggle_monitor, hps]
  | some ps =>
      have h1 : ps.mode ≠ "input" := h ps hps
      constructor
      · show (toggle_monitor s pin true).1 ≠ Result.success
        simp only [toggle_monitor, hps, if_pos h1]
        exact fun hc => Result.noConfusion hc
      · show (toggle_monitor s pin true).2 = s
        simp only [toggle_monitor, hps, if_pos h1]

/-- Claim C3 amended, witness at pin 17 in the initial state. -/
theorem c3_amended_witness :
    ((toggle_monitor init_state 17 true).1 ≠ Result.success ∧
      (toggle_monitor init_state 17 true).2 = init_state) ∧
    (reset_all_pins init_state).2.1.input_monitors = [] ∧
    (∀ m pl, (set_pin_mode init_state 17 m pl).2.input_monitors =
      init_state.input_monitors) ∧
    (∀ act f d, (control_pwm init_state 17 act f d).2.1.input_monitors =
      init_state.input_monitors) :=
  c3_amended init_state 17 (fun _ hps => Option.noConfusion hps)

/-- Claim C4 amended: cleanup_pin releases the handle of a configured pin
exactly once, and stopPwm releases the active PWM handle exactly once; but
startPwm on a pin with an active PwmState releases the prior PWM handle
exactly twice — once in the start branch, which does not remove the
registry entry, and once more in the subsequent cleanup_pin. -/
theorem c4_amended (s : St) (pin : Nat) (hf : s.failing = []) :
    (∀ ps h, mapLookup s.pin_states pin = some ps → ps.device = some h →
      mapLookup s.pwm_devices pin = none → (cleanup_pin s pin).2 = [h]) ∧
    (∀ pw, pin ∈ VALID_PINS → mapLookup s.pwm_devices pin = some pw →
      (control_pwm s pin "stop" none none).2.2 = [pw.device]) ∧
    (∀ pw f d, pin ∈ VALID_PINS → mapLookup s.pwm_devices pin = some pw →
      mapLookup s.pin_states pin = none → ¬ (d < 0 ∨ d > 100) →
      (control_pwm s pin "start" (some f) (some d)).2.2 = [pw.device, pw.device]) := by
  refine ⟨?_, ?_, ?_⟩
  · intro ps h hps hd hpw
    have hc : s.failing.contains h = false := by rw [hf]; rfl
    simp only [cleanup_pin, hps, hd, hc, Bool.false_eq_true, if_false, cleanup_pin_pwm, hpw]
  · intro pw hv hpw
    have hnv : ¬ pin ∉ VALID_PINS := not_not_intro hv
    have hc : s.failing.contains pw.device = false := by rw [hf]; rfl
    simp only [control_pwm, if_neg hnv, String.reduceEq, if_false, reduceIte, hpw, hc,
      Bool.false_eq_true]
  · intro pw f d hv hpw hps hd
    have hnv : ¬ pin ∉ VALID_PINS := not_not_intro hv
    have hc : s.failing.contains pw.device = false := by rw [hf]; rfl
    have hdb : ¬ ((some d : Option ℚ).getD 50 < 0 ∨ (some d : Option ℚ).getD 50 > 100) := hd
    simp only [control_pwm, if_neg hnv, reduceIte, if_neg hdb, hpw, hc, Bool.false_eq_true,
      if_false, pwm_start_acquire, cleanup_pin, hps, cleanup_pin_pwm]
    rfl

/-- Claim C4 amended, witness: handle 2 of output pin 5 is released once by
cleanup_pin; handle 7 of the PWM on pin 18 is released once by stop and
twice by a restart. -/
theorem c4_amended_witness :
    (cleanup_pin st_out5 5).2 = [2] ∧
    (control_pwm st_pwm18 18 "stop" none none).2.2 = [7] ∧
    (control_pwm st_pwm18 18 "start" (some 500) (some 25)).2.2 = [7, 7] :=
  ⟨(c4_amended st_out5 5 rfl).1
      { mode := "output", value := 1, pull := "off", device := some 2 } 2 rfl rfl rfl,
   (c4_amended st_pwm18 18 rfl).2.1
      { device := 7, frequency := 1000, duty_cycle := 50 } (by decide) rfl,
   (c4_amended st_pwm18 18 rfl).2.2
      { device := 7, frequency := 1000, duty_cycle := 50 } 500 25 (by decide) rfl rfl
      (by norm_num)⟩

end App

namespace App

/-- Claim C5 amended: the event queue is created without a capacity bound
(queue.Queue() defaults to maxsize 0, which is unbounded in Python), so
publishing never blocks and never drops a record — after publishing any
list of messages the queue holds exactly those records in FIFO publish
order, and its length equals the number published; the drop-on-Full
handler of log_event is unreachable. -/
theorem c5_amended_unbounded_fifo (msgs : List String) :
    (publish_all msgs).items =
      msgs.map (fun m => { message := m, level := Level.info }) ∧
    (publish_all msgs).items.length = msgs.length := by
  have h : publish_all msgs =
      { maxsize := 0,
        items := msgs.map (fun m => { message := m, level := Level.info }) } := by
    rw [publish_all, show event_queue = { maxsize := 0, items := [] } from rfl,
      foldl_log_event_info, List.nil_append]
  rw [h]
  exact ⟨rfl, by simp⟩

/-- Claim C5 counterexample: the queue length is not bounded by any fixed
capacity — for every candidate capacity, publishing one more message than
the capacity exceeds it. -/
theorem c5_counterexample :
    ¬ ∃ C : Nat, ∀ msgs : List String, (publish_all msgs).items.length ≤ C := by
  rintro ⟨C, h⟩
  have h2 := h (List.replicate (C + 1) ("x"))
  have h3 : (publish_all (List.replicate (C + 1) ("x"))).items.length = C + 1 := by
    rw [publish_all, show event_queue = { maxsize := 0, items := [] } from rfl,
      foldl_log_event_info]
    simp
  rw [h3] at h2
  omega

/-- Claim C6: after every sequence of commands from the initial state (with
well-behaved device handles), every pin has at most one of PinState and
PwmState — never both: configure tears down any PwmState before recording
the PinState, and startPwm tears down any PinState before recording the
PwmState, so the mutual-exclusion invariant holds for all runs. -/
theorem c6_mutual_exclusion (ops : List Op) (pin : Nat) :
    mapLookup (run init_state ops).pin_states pin = none ∨
    mapLookup (run init_state ops).pwm_devices pin = none :=
  (run_inv ops init_state rfl (fun _ => Or.inl rfl)).2 pin

/-- Claim C7: a pulse on an output-configured pin succeeds, drives the
level high then low exactly n times (n high writes and n low writes, in
alternation), sleeps for the full n times 2 times the on-duration (in
seconds), and leaves the recorded logical value at 0 for every n,
including n = 0. -/
theorem c7_pulse (s : St) (pin : Nat) (ps : PinState) (d : ℚ) (n : Nat)
    (h1 : mapLookup s.pin_states pin = some ps) (h2 : ps.mode = "output") :
    (write_pin s pin "pulse" d n).1 = Result.success ∧
    (write_pin s pin "pulse" d n).2.2.writes = pulse_writes n ∧
    (write_pin s pin "pulse" d n).2.2.writes.count 1 = n ∧
    (write_pin s pin "pulse" d n).2.2.writes.count 0 = n ∧
    (write_pin s pin "pulse" d n).2.2.sleep = n * (2 * (d / 1000)) ∧
    (mapLookup (write_pin s pin "pulse" d n).2.1.pin_states pin).map PinState.value =
      some 0 := by
  have hno : ¬ (ps.mode ≠ "output") := not_not_intro h2
  have e : write_pin s pin "pulse" d n = (Result.success,
      { s with pin_states := mapInsert s.pin_states pin { ps with value := 0 },
               event_queue := log_event s.event_queue ("Pin " ++ toString pin ++ " pulsed")
                 Level.info },
      { writes := pulse_writes n, sleep := pulse_sleep n (d / 1000) }) := by
    simp only [write_pin, h1, if_neg hno]
    rw [if_neg (by decide : ¬ (("pulse" : String) = "high" ∨ ("pulse" : String) = "low")),
      if_pos trivial]
  rw [e]
  refine ⟨rfl, rfl, pulse_writes_count_one n, pulse_writes_count_zero n,
    pulse_sleep_eq n (d / 1000), ?_⟩
  show (mapLookup (mapInsert s.pin_states pin { ps with value := 0 }) pin).map
    PinState.value = some 0
  rw [mapLookup_mapInsert, if_pos rfl]
  rfl

/-- Claim C7, witness: a 3-cycle 100 ms pulse on output pin 5. -/
theorem c7_pulse_witness :
    (write_pin st_out5 5 "pulse" 100 3).1 = Result.success ∧
    (write_pin st_out5 5 "pulse" 100 3).2.2.writes = pulse_writes 3 ∧
    (write_pin st_out5 5 "pulse" 100 3).2.2.writes.count 1 = 3 ∧
    (write_pin st_out5 5 "pulse" 100 3).2.2.writes.count 0 = 3 ∧
    (write_pin st_out5 5 "pulse" 100 3).2.2.sleep = 3 * (2 * ((100 : ℚ) / 1000)) ∧
    (mapLookup (write_pin st_out5 5 "pulse" 100 3).2.1.pin_states 5).map PinState.value =
      some 0 :=
  c7_pulse st_out5 5 { mode := "output", value := 1, pull := "off", device := some 2 }
    100 3 rfl rfl

/-- Claim C8 amended: reset always reports success and clears the monitor
set first; when every handle release succeeds, every PinState and PwmState
entry is removed, so a snapshot reports every pin unconfigured.  (A pin
whose release raises keeps its registry entry while cleanup of the
remaining pins proceeds — see the counterexample.) -/
theorem c8_amended (s : St) (hf : s.failing = []) :
    (reset_all_pins s).1 = Result.success ∧
    (reset_all_pins s).2.1.input_monitors = [] ∧
    (∀ q, mapLookup (reset_all_pins s).2.1.pin_states q = none) ∧
    (∀ q, mapLookup (reset_all_pins s).2.1.pwm_devices q = none) := by
  refine ⟨rfl, reset_all_pins_monitors s, ?_, ?_⟩
  · intro q
    exact (cleanup_all_lookup { s with input_monitors := [] } hf q).1
  · intro q
    exact (cleanup_all_lookup { s with input_monitors := [] } hf q).2

/-- Claim C8 amended, witness at a state with output pin 5 configured. -/
theorem c8_amended_witness :
    (reset_all_pins st_out5).1 = Result.success ∧
    (reset_all_pins st_out5).2.1.input_monitors = [] ∧
    (∀ q, mapLookup (reset_all_pins st_out5).2.1.pin_states q = none) ∧
    (∀ q, mapLookup (reset_all_pins st_out5).2.1.pwm_devices q = none) :=
  c8_amended st_out5 rfl

/-- Claim C9 amended: a write request whose action is not high, low or
pulse is rejected with an error and no mutation; a pwm request on a valid
pin whose action is not start, stop or update performs no state mutation
and no hardware call but is reported as success rather than an error. -/
theorem c9_amended (s : St) (pin : Nat) (act : String) (d : ℚ) (l : Nat) (f dc : Option ℚ)
    (hw1 : ¬ (act = "high" ∨ act = "low")) (hw2 : act ≠ "pulse")
    (h1 : act ≠ "start") (h2 : act ≠ "stop") (h3 : act ≠ "update")
    (hp : pin ∈ VALID_PINS) :
    ((write_pin s pin act d l).1 ≠ Result.success ∧ (write_pin s pin act d l).2.1 = s) ∧
    control_pwm s pin act f dc = (Result.success, s, []) := by
  have hnv : ¬ pin ∉ VALID_PINS := not_not_intro hp
  constructor
  · cases hps : mapLookup s.pin_states pin with
    | none =>
        constructor
        · show (write_pin s pin act d l).1 ≠ Result.success
          simp only [write_pin, hps]
          exact fun hc => Result.noConfusion hc
        · show (write_pin s pin act d l).2.1 = s
          simp only [write_pin, hps]
    | some ps =>
        by_cases hm1 : ps.mode ≠ "output"
        · constructor
          · show (write_pin s pin act d l).1 ≠ Result.success
            simp only [write_pin, hps, if_pos hm1]
            exact fun hc => Result.noConfusion hc
          · show (write_pin s pin act d l).2.1 = s
            simp only [write_pin, hps, if_pos hm1]
        · constructor
          · show (write_pin s pin act d l).1 ≠ Result.success
            simp only [write_pin, hps, if_neg hm1, if_neg hw1, if_neg hw2]
            exact fun hc => Result.noConfusion hc
          · show (write_pin s pin act d l).2.1 = s
            simp only [write_pin, hps, if_neg hm1, if_neg hw1, if_neg hw2]
  · simp only [control_pwm, if_neg hnv, if_neg h1, if_neg h2, if_neg h3]

/-- Claim C9 amended, witness with the action "bogus" on pin 17. -/
theorem c9_amended_witness :
    ((write_pin init_state 17 "bogus" 0 0).1 ≠ Result.success ∧
      (write_pin init_state 17 "bogus" 0 0).2.1 = init_state) ∧
    control_pwm init_state 17 "bogus" none none = (Result.success, init_state, []) :=
  c9_amended init_state 17 "bogus" 0 0 none none (by decide) (by decide) (by decide)
    (by decide) (by decide) (by decide)

/-- Claim C10: startPwm accepts every valid pin regardless of membership in
the PWM-capable pin set — for a valid pin outside PWM_PINS and a duty cycle
within bounds, the start command succeeds; PWM capability is reported in
the state query but never enforced by control_pwm. -/
theorem c10_pwm_capability_not_enforced (s : St) (pin : Nat) (f d : ℚ)
    (hf : s.failing = []) (hp : pin ∈ VALID_PINS) (_hnp : pin ∉ PWM_PINS)
    (h0 : 0 ≤ d) (h1 : d ≤ 100) :
    (control_pwm s pin "start" (some f) (some d)).1 = Result.success := by
  have hnv : ¬ pin ∉ VALID_PINS := not_not_intro hp
  have hdb : ¬ ((some d : Option ℚ).getD 50 < 0 ∨ (some d : Option ℚ).getD 50 > 100) := by
    show ¬ (d < 0 ∨ d > 100)
    rintro (hcon | hcon)
    · exact absurd hcon (not_lt.mpr h0)
    · exact absurd hcon (not_lt.mpr h1)
  cases hpw : mapLookup s.pwm_devices pin with
  | some old =>
      have hc : s.failing.contains old.device = false := by rw [hf]; rfl
      simp only [control_pwm, if_neg hnv, reduceIte, if_neg hdb, hpw, hc,
        Bool.false_eq_true, if_false, pwm_start_acquire]
  | none =>
      simp only [control_pwm, if_neg hnv, reduceIte, if_neg hdb, hpw, pwm_start_acquire]

/-- Claim C10, witness: pin 17 is valid, not PWM-capable, and start with
duty 50 succeeds. -/
theorem c10_witness :
    (control_pwm init_state 17 "start" (some 1000) (some 50)).1 = Result.success :=
  c10_pwm_capability_not_enforced init_state 17 1000 50 rfl (by decide) (by decide)
    (by norm_num) (by norm_num)

end App
